import Mathlib

/-!
A shallow embedding of the Bayesian-network inference engine
(`bayesian.py` over the directed-graph layer of `graph.py`).

Modelling choices:
* numpy arrays become `Tensor`: a row-major flattened list of rationals
  together with a shape list.  Rational arithmetic stands in for IEEE
  floating point; in `ℚ`, division by zero yields `0` where numpy yields
  `nan` (both differ from any genuine probability value).
* `np.einsum` becomes `einsum`, the labelled-contraction primitive of the
  spec: output entry = sum over all assignments of the contracted labels
  of the product of the input entries.  Axis labels are natural numbers;
  the engine labels the i-th vertex (in insertion order) with `i`, which
  is in bijection with the source's `chr(i + 97)` scheme, and
  `ord(label) - 97` recovers exactly this position.
* Python exceptions become `Except BNError` / explicit outcome values;
  mutation becomes state passing, so a method that validates before
  mutating returns the unchanged state alongside the error.
* Python dicts preserve insertion order, so `_vertexes` becomes a list of
  vertices unique by name, and `vertexes()` iterates it in order.
-/

namespace BayesNet

/-- An n-dimensional array of rationals: a shape together with the
row-major flattened entries (as a numpy `ndarray` of probabilities). -/
structure Tensor where
  shape : List Nat
  data : List ℚ
deriving DecidableEq, Repr

/-- Row-major flat offset of a multi-index into a tensor of the given
shape (numpy's C-order indexing). -/
def flatIndex : List Nat → List Nat → Nat
  | _ :: ss, i :: is => i * ss.prod + flatIndex ss is
  | _, _ => 0

/-- The entry of a tensor at a multi-index (0 outside the stored data). -/
def Tensor.entry (t : Tensor) (idx : List Nat) : ℚ :=
  t.data.getD (flatIndex t.shape idx) 0

/-- `np.sum` over all elements. -/
def Tensor.total (t : Tensor) : ℚ := t.data.sum

/-- `t / np.sum(t)`: divide every entry by the sum of all entries. -/
def Tensor.normalize (t : Tensor) : Tensor :=
  { shape := t.shape, data := t.data.map (· / t.total) }

/-- All multi-indices of a given shape, in row-major order. -/
def enumIndices : List Nat → List (List Nat)
  | [] => [[]]
  | s :: rest => (List.range s).flatMap fun i => (enumIndices rest).map (i :: ·)

/-- The axis sizes contributed by each labelled input: every (label, size)
pair read off the inputs' label sequences and shapes. -/
def labelDims (inputs : List (List Nat × Tensor)) : List (Nat × Nat) :=
  inputs.flatMap fun p => p.1.zip p.2.shape

/-- The size of the axis a label ranges over (first occurrence wins). -/
def dimOf (ld : List (Nat × Nat)) (l : Nat) : Nat := ((ld.lookup l).getD 0)

/-- Keep the first occurrence of every element. -/
def dedupFirst : List Nat → List Nat
  | [] => []
  | x :: xs => x :: (dedupFirst xs).filter (· ≠ x)

/-- Value a label takes under an assignment list. -/
def assignOf (asg : List (Nat × Nat)) (l : Nat) : Nat := (asg.lookup l).getD 0

/-- The labelled tensor-contraction primitive (`np.einsum`): each output
entry is the sum, over every assignment of the labels appearing in some
input but not in the output, of the product of the entries of all inputs
at the indices their label sequences select. -/
def einsum (inputs : List (List Nat × Tensor)) (out : List Nat) : Tensor :=
  let ld := labelDims inputs
  let summed := (dedupFirst (inputs.flatMap Prod.fst)).filter
    (fun l => !(out.contains l))
  let outShape := out.map (dimOf ld)
  let sumShape := summed.map (dimOf ld)
  { shape := outShape
  , data := (enumIndices outShape).map fun oidx =>
      ((enumIndices sumShape).map fun sidx =>
        let asg := out.zip oidx ++ summed.zip sidx
        (inputs.map fun p => p.2.entry (p.1.map (assignOf asg))).prod).sum }

/-- Errors the engine can raise, one constructor per Python exception
site: the three `ValueError`s of `addProbabilityTable`, the
`AttributeError` on a node with no attached table, the `KeyError` of a
name lookup, and the `ValueError` of an unknown state. -/
inductive BNError where
  | shapeMismatch
  | dimMismatch
  | depListMismatch
  | missingTable
  | notFound
  | invalidState
deriving DecidableEq, Repr

/-- A `_Vertex` carrying the probabilistic attributes `addProbabilityTable`
sets.  `probability = none` models a vertex the attributes were never set
on (accessing them raises, cf. `BNError.missingTable`). -/
structure Vertex where
  name : String
  probability : Option Tensor := none
  states : List String := []
  dependencyList : List String := []
deriving DecidableEq, Repr

/-- A `BayesianNet`: the directed-graph state (`_vertexes` in insertion
order, unique by name, and the `_edges` key set) plus `evidenceList`. -/
structure BayesianNet where
  vertexes : List Vertex := []
  edges : List (String × String) := []
  evidenceList : List (String × String) := []
deriving DecidableEq, Repr

/-- `vertexObject`: look a vertex up by name (`none` models `KeyError`). -/
def vertexObject (net : BayesianNet) (vName : String) : Option Vertex :=
  net.vertexes.find? (fun v => v.name == vName)

def hasVertex (net : BayesianNet) (vName : String) : Bool :=
  (vertexObject net vName).isSome

/-- `addVertex` / `addNode`: insert a fresh vertex if absent (idempotent). -/
def addVertex (net : BayesianNet) (name : String) : BayesianNet :=
  if hasVertex net name then net
  else { net with vertexes := net.vertexes ++ [{ name := name }] }

def addNode (net : BayesianNet) (nName : String) : BayesianNet :=
  addVertex net nName

/-- `addEdge` / `addChild`: insert endpoints idempotently, then the edge
if the ordered pair is not already present; the child becomes a neighbor
of the parent, which is what `edges` records here. -/
def addEdge (net : BayesianNet) (pName cName : String) : BayesianNet :=
  if net.edges.contains (pName, cName) then net
  else
    let net1 := addVertex (addVertex net pName) cName
    { net1 with edges := net1.edges ++ [(pName, cName)] }

def addChild (net : BayesianNet) (pName cName : String) : BayesianNet :=
  addEdge net pName cName

/-- `getParents`: every vertex whose neighbor set contains `uName`, i.e.
every `v` with an edge `(v.name, uName)`. -/
def getParents (net : BayesianNet) (uName : String) : List Vertex :=
  net.vertexes.filter (fun v => net.edges.contains (v.name, uName))

/-- `addProbabilityTable`: validate shape against states, rank against the
graph parents, and rank against the dependency list, in that order, then
set the three attributes on the vertex.  Returns the post-call network
together with the raised error when validation fails; the network is
returned unchanged in every error case because all validation precedes
the mutation. -/
def addProbabilityTable (net : BayesianNet) (uName : String)
    (probability : Tensor) (states : List String)
    (dependencyList : List String := []) : BayesianNet × Option BNError :=
  let shape := probability.shape
  if shape.headD 0 ≠ states.length then
    (net, some .shapeMismatch)
  else if ¬ hasVertex net uName then
    (net, some .notFound)
  else if shape.length ≠ (getParents net uName).length + 1 then
    (net, some .dimMismatch)
  else if shape.length ≠ dependencyList.length + 1 then
    (net, some .depListMismatch)
  else
    ({ net with vertexes := net.vertexes.map fun v =>
        if v.name == uName then
          { v with probability := some probability
                 , states := states
                 , dependencyList := dependencyList }
        else v }
     , none)

/-- Position of a name in a list (`list.index(x)` / dict-order lookup). -/
def findIndex : List String → String → Option Nat
  | [], _ => none
  | x :: xs, n => if x = n then some 0 else (findIndex xs n).map (· + 1)

/-- `indexDict[vName]`: the axis label of a vertex is its position in the
network's vertex insertion order (the source writes it as `chr(i + 97)`;
`ord` of that label minus 97 recovers exactly this position). -/
def labelOf (net : BayesianNet) (vName : String) : Except BNError Nat :=
  match findIndex (net.vertexes.map Vertex.name) vName with
  | some i => .ok i
  | none => .error .notFound

/-- `[v.probability for v in vertexList]`: collect the attached tables,
failing on the first vertex with none (`AttributeError`). -/
def collectTables : List Vertex → Except BNError (List Tensor)
  | [] => .ok []
  | v :: rest =>
    match v.probability with
    | none => .error .missingTable
    | some t => (collectTables rest).map (t :: ·)

/-- The input label sequence of one vertex: its own label first, then the
labels of its declared dependencies in order. -/
def inputLabels (net : BayesianNet) (u : Vertex) : Except BNError (List Nat) := do
  let l ← labelOf net u.name
  let ds ← u.dependencyList.mapM (labelOf net)
  pure (l :: ds)

/-- The vertex list `jointProbability` actually contracts over: the full
network when no subset is passed or when evidence is set. -/
def queriedSubset (net : BayesianNet) (vertexList? : Option (List Vertex)) :
    List Vertex :=
  if vertexList?.isNone || !net.evidenceList.isEmpty then net.vertexes
  else vertexList?.getD []

/-- Steps 1-4 of the joint computation: gather the tables, build the
einsum expression `lhs -> rhs` from the global labels, and contract. -/
def rawJoint (net : BayesianNet) (vertexList : List Vertex) :
    Except BNError Tensor := do
  let probList ← collectTables vertexList
  let lhsList ← vertexList.mapM (inputLabels net)
  let rhs ← vertexList.mapM (fun v => labelOf net v.name)
  pure (einsum (lhsList.zip probList) rhs)

/-- `dimList`: one slot per axis of the joint, `none` (`slice(None)`) by
default; each evidence pair overwrites the slot at its node's global
label with the index of its state in that node's `states` list. -/
def evidenceFixes (net : BayesianNet) (rank : Nat) :
    Except BNError (List (Option Nat)) :=
  net.evidenceList.foldlM
    (fun dimList p => do
      let i ← labelOf net p.1
      let v ← match vertexObject net p.1 with
        | some v => Except.ok v
        | none => Except.error BNError.notFound
      let si ← match findIndex v.states p.2 with
        | some si => Except.ok si
        | none => Except.error BNError.invalidState
      pure (dimList.set i (some si)))
    (List.replicate rank none)

/-- The shape left after integer-indexing the fixed axes away. -/
def sliceShape : List Nat → List (Option Nat) → List Nat
  | [], _ => []
  | _ :: ss, some _ :: fs => sliceShape ss fs
  | s :: ss, none :: fs => s :: sliceShape ss fs
  | s :: ss, [] => s :: sliceShape ss []

/-- Rebuild a full multi-index from the fixed positions and an index over
the remaining axes. -/
def mergeIdx : List (Option Nat) → List Nat → List Nat
  | [], _ => []
  | some i :: fs, idx => i :: mergeIdx fs idx
  | none :: fs, j :: idx => j :: mergeIdx fs idx
  | none :: _, [] => []

/-- `jointProb[tuple(dimList)]`: fix each evidence axis to its state index
by integer indexing, collapsing those axes. -/
def sliceTensor (t : Tensor) (fixes : List (Option Nat)) : Tensor :=
  let shape' := sliceShape t.shape fixes
  { shape := shape'
  , data := (enumIndices shape').map fun idx => t.entry (mergeIdx fixes idx) }

/-- `jointProbability`: contract the queried subset (the full network when
no subset is given or evidence is set), normalize by the total, and, when
evidence is set, fix each evidence axis and renormalize the slice by its
own sum. -/
def jointProbability (net : BayesianNet)
    (vertexList? : Option (List Vertex) := none) : Except BNError Tensor := do
  let vertexList := queriedSubset net vertexList?
  let raw ← rawJoint net vertexList
  let jointProb := raw.normalize
  if net.evidenceList.isEmpty then
    pure jointProb
  else
    let fixes ← evidenceFixes net jointProb.shape.length
    pure (sliceTensor jointProb fixes).normalize

/-- `marginalProbability`: fast path returns the table of a
dependency-free node when no evidence is set; otherwise compute the joint
of the full network (or of the node and its dependencies when
`total = false` and no evidence forces it to `true`) and contract it down
to the node's own label, the labels of evidence-clamped nodes being
absent from the input label sequence. -/
def marginalProbability (net : BayesianNet) (uName : String)
    (total : Bool := true) : Except BNError Tensor := do
  let u ← match vertexObject net uName with
    | some u => Except.ok u
    | none => Except.error BNError.notFound
  if u.dependencyList.isEmpty && net.evidenceList.isEmpty then
    match u.probability with
    | some t => Except.ok t
    | none => Except.error BNError.missingTable
  else
    let total := total || !net.evidenceList.isEmpty
    let vertexList ←
      if total then Except.ok net.vertexes
      else do
        let deps ← u.dependencyList.mapM (fun n =>
          match vertexObject net n with
          | some v => Except.ok v
          | none => Except.error BNError.notFound)
        Except.ok (u :: deps)
    let jointProb ← jointProbability net (some vertexList)
    let setVertexes := net.evidenceList.map Prod.fst
    let lhs ← (vertexList.filter (fun v => !(setVertexes.contains v.name))).mapM
      (fun v => labelOf net v.name)
    let rhs ← labelOf net uName
    pure (einsum [(lhs, jointProb)] [rhs])

/-- The three ways `setEvidence` can come out: success, the silent abort
on an unknown node name (the `except KeyError` branch that prints and
returns), and the raised `ValueError` on a state not in the node's
states list. -/
inductive SetEvidenceOutcome where
  | ok
  | invalidNode
  | invalidState
deriving DecidableEq, Repr

/-- The validation loop of `setEvidence`: per entry, in order, the name
must resolve to a vertex (else the silent abort) and the state must be a
member of that vertex's `states` (else the raised error). -/
def validateEvidence (net : BayesianNet) :
    List (String × String) → SetEvidenceOutcome
  | [] => .ok
  | (vName, vState) :: rest =>
    match vertexObject net vName with
    | none => .invalidNode
    | some v =>
      if vState ∈ v.states then validateEvidence net rest
      else .invalidState

/-- `setEvidence`: on full validation, replace the evidence list
wholesale; on any validation failure the list is unchanged. -/
def setEvidence (net : BayesianNet) (evidenceList : List (String × String)) :
    BayesianNet × SetEvidenceOutcome :=
  match validateEvidence net evidenceList with
  | .ok => ({ net with evidenceList := evidenceList }, .ok)
  | .invalidNode => (net, .invalidNode)
  | .invalidState => (net, .invalidState)

/-- `unsetEvidence`: unconditionally clear the evidence list. -/
def unsetEvidence (net : BayesianNet) : BayesianNet :=
  { net with evidenceList := [] }

/-- The lookup loop of `getInference`: first evidence entry whose name
matches wins. -/
def evidenceLookup : List (String × String) → String → Option String
  | [], _ => none
  | (vName, vState) :: rest, uName =>
    if uName = vName then some vState else evidenceLookup rest uName

/-- `getInference`: the clamped state label if the node is in the
evidence list, otherwise `marginalProbability(name, total=True)`. -/
def getInference (net : BayesianNet) (uName : String) :
    Except BNError (String ⊕ Tensor) :=
  match evidenceLookup net.evidenceList uName with
  | some s => .ok (.inl s)
  | none => (marginalProbability net uName true).map .inr

end BayesNet

namespace BayesNet

/-- Marginal table of the two-state root node `A`. -/
def tblA : Tensor := ⟨[2], [3/10, 7/10]⟩

/-- Conditional table of `B` given `A` (own axis first, then `A`'s). -/
def tblB : Tensor := ⟨[2, 2], [1/10, 1/2, 9/10, 1/2]⟩

/-- The chain network `A → B` with both tables attached. -/
def net2 : BayesianNet :=
  let n0 := addChild (addNode {} "A") "A" "B"
  let n1 := (addProbabilityTable n0 "A" tblA ["T", "F"]).1
  (addProbabilityTable n1 "B" tblB ["T", "F"] ["A"]).1

/-- `net2` with evidence `A = T` set. -/
def net2T : BayesianNet := (setEvidence net2 [("A", "T")]).1

/-- A single two-state node whose table puts probability 0 on state `F`,
with evidence clamping it to `F`: the evidence slice of the joint sums
to 0. -/
def netZero : BayesianNet :=
  let n := (addProbabilityTable (addNode {} "C") ("C") (⟨[2], [1, 0]⟩)
    ["T", "F"]).1
  (setEvidence n [("C", "F")]).1

/-- A copy of `net2` whose evidence list clamps `A` twice. -/
def net2dup : BayesianNet :=
  { net2 with evidenceList := [("A", "T"), ("A", "F")] }

/-- An evidence entry passing both checks of the `setEvidence` loop: its
name resolves to a vertex and its state is in that vertex's list. -/
def entryOK (net : BayesianNet) (p : String × String) : Bool :=
  match vertexObject net p.1 with
  | some v => decide (p.2 ∈ v.states)
  | none => false

/-- The chain `A → B` with a table attached only to `A`. -/
def netMissing : BayesianNet :=
  (addProbabilityTable (addChild (addNode {} "A") "A" "B") "A" tblA
    ["T", "F"]).1

end BayesNet

attribute [local semireducible] Rat.add Rat.mul Rat.inv

deriving instance DecidableEq for Except

namespace BayesNet

lemma evidenceLookup_not_mem (l : List (String × String)) (u : String)
    (h : u ∉ l.map Prod.fst) : evidenceLookup l u = none := by
  induction l with
  | nil => rfl
  | cons p rest ih =>
    obtain ⟨pn, ps⟩ := p
    simp only [List.map_cons, List.mem_cons, not_or] at h
    simp only [evidenceLookup, if_neg h.1]
    exact ih h.2

lemma evidenceLookup_append_first (pre post : List (String × String))
    (n s : String) (h : n ∉ pre.map Prod.fst) :
    evidenceLookup (pre ++ (n, s) :: post) n = some s := by
  induction pre with
  | nil => simp [evidenceLookup]
  | cons p rest ih =>
    obtain ⟨pn, ps⟩ := p
    simp only [List.map_cons, List.mem_cons, not_or] at h
    simp only [List.cons_append, evidenceLookup, if_neg h.1]
    exact ih h.2

lemma evidenceLookup_mem (l : List (String × String)) (u : String)
    (h : u ∈ l.map Prod.fst) : ∃ s, evidenceLookup l u = some s := by
  induction l with
  | nil => simp at h
  | cons p rest ih =>
    obtain ⟨pn, ps⟩ := p
    by_cases hu : u = pn
    · exact ⟨ps, by simp [evidenceLookup, hu]⟩
    · simp only [List.map_cons, List.mem_cons] at h
      obtain ⟨s, hs⟩ := ih (h.resolve_left hu)
      exact ⟨s, by simp [evidenceLookup, hu, hs]⟩

/-- C10: if the evidence list holds several entries for one node name
(duplicates are not deduplicated), `getInference` returns the state of
the first matching entry in list order. -/
theorem getInference_first_match (net : BayesianNet)
    (pre post : List (String × String)) (n s : String)
    (hn : n ∉ pre.map Prod.fst)
    (hev : net.evidenceList = pre ++ (n, s) :: post) :
    getInference net n = .ok (.inl s) := by
  simp [getInference, hev, evidenceLookup_append_first pre post n s hn]

/-- Witness for C10 at `net2dup`: the first of the two `A` entries wins. -/
theorem getInference_first_match_witness :
    getInference net2dup "A" = .ok (.inl "T") :=
  getInference_first_match net2dup [] [("A", "F")] "A" "T" (by simp) rfl

/-- C3: a name present in the evidence list is answered with its clamped
state and no distribution is computed; any other name is answered with
`marginalProbability(name, total=True)`; in particular `setEvidence`
followed by `getInference` on the same node returns the set state. -/
theorem getInference_spec (net : BayesianNet) (uName : String) :
    (uName ∈ net.evidenceList.map Prod.fst →
      ∃ s, evidenceLookup net.evidenceList uName = some s ∧
        getInference net uName = .ok (.inl s)) ∧
    (uName ∉ net.evidenceList.map Prod.fst →
      getInference net uName =
        (marginalProbability net uName true).map Sum.inr) ∧
    (∀ n s, (setEvidence net [(n, s)]).2 = .ok →
      getInference (setEvidence net [(n, s)]).1 n = .ok (.inl s)) := by
  refine ⟨fun h => ?_, fun h => ?_, fun n s h => ?_⟩
  · obtain ⟨s, hs⟩ := evidenceLookup_mem net.evidenceList uName h
    exact ⟨s, hs, by simp [getInference, hs]⟩
  · simp [getInference, evidenceLookup_not_mem net.evidenceList uName h]
  · unfold setEvidence at h ⊢
    cases hv : validateEvidence net [(n, s)] with
    | ok => simp [hv, getInference, evidenceLookup]
    | invalidNode => rw [hv] at h; simp at h
    | invalidState => rw [hv] at h; simp at h

/-- Witness for C3 at `net2T`: its three clauses at concrete inputs. -/
theorem getInference_spec_witness :
    (∃ s, evidenceLookup net2T.evidenceList "A" = some s ∧
      getInference net2T "A" = .ok (.inl s)) ∧
    (getInference net2T "B" =
      (marginalProbability net2T "B" true).map Sum.inr) ∧
    (getInference (setEvidence net2 [("B", "F")]).1 "B" = .ok (.inl "F")) :=
  ⟨(getInference_spec net2T "A").1 (by decide),
   ((getInference_spec net2T "B").2).1 (by decide),
   ((getInference_spec net2 "B").2).2 "B" "F" (by decide)⟩

/-- C8: for a node with an attached table, an empty dependency list and no
evidence set, `marginalProbability` returns the attached table itself,
whatever `total` is. -/
theorem marginalProbability_no_parents_table (net : BayesianNet)
    (uName : String) (u : Vertex) (t : Tensor) (total : Bool)
    (hu : vertexObject net uName = some u)
    (hdep : u.dependencyList = [])
    (ht : u.probability = some t)
    (hev : net.evidenceList = []) :
    marginalProbability net uName total = .ok t := by
  simp [marginalProbability, hu, hdep, ht, hev, Bind.bind, Except.bind]

/-- Witness for C8 at the parentless node `A` of `net2`. -/
theorem marginalProbability_no_parents_table_witness :
    marginalProbability net2 "A" false = .ok tblA :=
  marginalProbability_no_parents_table net2 "A"
    { name := "A", probability := some tblA, states := ["T", "F"]
    , dependencyList := [] }
    tblA false (by decide) rfl rfl rfl

lemma validateEvidence_append (net : BayesianNet)
    (l r : List (String × String)) (h : ∀ p ∈ l, entryOK net p) :
    validateEvidence net (l ++ r) = validateEvidence net r := by
  induction l with
  | nil => rfl
  | cons p rest ih =>
    obtain ⟨pn, ps⟩ := p
    have hp := h (pn, ps) (List.mem_cons_self _ _)
    unfold entryOK at hp
    cases hv : vertexObject net (pn, ps).1 with
    | none => rw [hv] at hp; simp at hp
    | some v =>
      rw [hv] at hp
      simp only at hp
      have hmem : ps ∈ v.states := of_decide_eq_true hp
      simp only [List.cons_append, validateEvidence, hv, if_pos hmem]
      exact ih (fun q hq => h q (List.mem_cons_of_mem _ hq))

lemma validateEvidence_ok (net : BayesianNet)
    (l : List (String × String)) (h : ∀ p ∈ l, entryOK net p) :
    validateEvidence net l = .ok := by
  have := validateEvidence_append net l [] h
  simpa using this

/-- Counterexample to C5 as stated: in `net2` there is no node `Z`, yet
`setEvidence [("A","X"), ("Z","T")]` raises InvalidState (from the
earlier entry's bad state) instead of silently aborting. -/
theorem setEvidence_mixed_failure_cex :
    hasVertex net2 "Z" = false ∧
    (setEvidence net2 [("A", "X"), ("Z", "T")]).2 =
      SetEvidenceOutcome.invalidState := by decide

/-- C5 (amended): the entries are validated sequentially, the name check
before the state check within each entry; the first failing check
determines the outcome.  A first-failure that is a missing name aborts
silently with the evidence unchanged; a first-failure that is a state not
in the node's states list raises InvalidState with the evidence
unchanged; if all entries validate, the evidence list is replaced
wholesale. -/
theorem setEvidence_spec (net : BayesianNet) :
    (∀ pre post n s, (∀ p ∈ pre, entryOK net p) →
      vertexObject net n = none →
      setEvidence net (pre ++ (n, s) :: post) = (net, .invalidNode)) ∧
    (∀ pre post n s v, (∀ p ∈ pre, entryOK net p) →
      vertexObject net n = some v → s ∉ v.states →
      setEvidence net (pre ++ (n, s) :: post) = (net, .invalidState)) ∧
    (∀ ev, (∀ p ∈ ev, entryOK net p) →
      setEvidence net ev = ({ net with evidenceList := ev }, .ok)) := by
  refine ⟨fun pre post n s hpre hn => ?_, fun pre post n s v hpre hn hs => ?_,
    fun ev hev => ?_⟩
  · have hv : validateEvidence net (pre ++ (n, s) :: post) = .invalidNode := by
      rw [validateEvidence_append net pre _ hpre]
      simp [validateEvidence, hn]
    simp [setEvidence, hv]
  · have hv : validateEvidence net (pre ++ (n, s) :: post) = .invalidState := by
      rw [validateEvidence_append net pre _ hpre]
      simp [validateEvidence, hn, if_neg hs]
    simp [setEvidence, hv]
  · simp [setEvidence, validateEvidence_ok net ev hev]

/-- Witness for C5 (amended) at `net2`: silent abort on an unknown first
name, InvalidState on a bad state behind a valid entry, and wholesale
replacement on a fully valid list. -/
theorem setEvidence_spec_witness :
    setEvidence net2 [("Z", "T")] = (net2, .invalidNode) ∧
    setEvidence net2 [("A", "T"), ("B", "X")] = (net2, .invalidState) ∧
    setEvidence net2 [("A", "T")] =
      ({ net2 with evidenceList := [("A", "T")] }, .ok) :=
  ⟨(setEvidence_spec net2).1 [] [] "Z" "T" (by decide) (by decide),
   (setEvidence_spec net2).2.1 [("A", "T")] [] "B" "X"
     { name := "B", probability := some tblB, states := ["T", "F"]
     , dependencyList := ["A"] }
     (by decide) (by decide) (by decide),
   (setEvidence_spec net2).2.2 [("A", "T")] (by decide)⟩

/-- C6: each of the three `addProbabilityTable` validations, checked in
source order, fails with its own error and returns the network unchanged
(the vertex's previously attached table, states and dependency list are
untouched). -/
theorem addProbabilityTable_validation (net : BayesianNet) (uName : String)
    (t : Tensor) (states dl : List String) :
    (t.shape.headD 0 ≠ states.length →
      addProbabilityTable net uName t states dl = (net, some .shapeMismatch)) ∧
    (t.shape.headD 0 = states.length → hasVertex net uName →
      t.shape.length ≠ (getParents net uName).length + 1 →
      addProbabilityTable net uName t states dl = (net, some .dimMismatch)) ∧
    (t.shape.headD 0 = states.length → hasVertex net uName →
      t.shape.length = (getParents net uName).length + 1 →
      t.shape.length ≠ dl.length + 1 →
      addProbabilityTable net uName t states dl =
        (net, some .depListMismatch)) := by
  refine ⟨fun h1 => ?_, fun h1 h2 h3 => ?_, fun h1 h2 h3 h4 => ?_⟩
  · unfold addProbabilityTable
    rw [if_pos h1]
  · unfold addProbabilityTable
    rw [if_neg (fun hc => hc h1), if_neg (fun hc => hc (by simp [h2])),
      if_pos h3]
  · unfold addProbabilityTable
    rw [if_neg (fun hc => hc h1), if_neg (fun hc => hc (by simp [h2])),
      if_neg (fun hc => hc h3), if_pos h4]

/-- Witness for C6 at `net2`: a first-axis/states mismatch on `A`, a rank
too large for the parentless `A`, and a rank not matching the empty
dependency list on the one-parent `B`. -/
theorem addProbabilityTable_validation_witness :
    addProbabilityTable net2 "A" ⟨[3], [1, 0, 0]⟩ ["T", "F"] [] =
      (net2, some .shapeMismatch) ∧
    addProbabilityTable net2 "A" ⟨[2, 2], [1, 0, 0, 1]⟩ ["T", "F"] [] =
      (net2, some .dimMismatch) ∧
    addProbabilityTable net2 "B" ⟨[2, 2], [1, 0, 0, 1]⟩ ["T", "F"] [] =
      (net2, some .depListMismatch) :=
  ⟨(addProbabilityTable_validation net2 "A" ⟨[3], [1, 0, 0]⟩ ["T", "F"] []).1
     (by decide),
   (addProbabilityTable_validation net2 "A" ⟨[2, 2], [1, 0, 0, 1]⟩
     ["T", "F"] []).2.1 (by decide) (by decide) (by decide),
   (addProbabilityTable_validation net2 "B" ⟨[2, 2], [1, 0, 0, 1]⟩
     ["T", "F"] []).2.2 (by decide) (by decide) (by decide) (by decide)⟩

/-- Counterexample to C9 as stated: `net2T` already clamps `A = T`; a
`setEvidence`/`unsetEvidence` round trip empties the evidence list, so
the marginal of `B` afterwards is the unconditioned one, not the value it
had before the `setEvidence` call. -/
theorem unsetEvidence_prior_evidence_cex :
    (setEvidence net2T [("A", "F")]).2 = .ok ∧
    marginalProbability (unsetEvidence (setEvidence net2T [("A", "F")]).1)
        "B" true ≠ marginalProbability net2T "B" true := by decide

/-- C9 (amended): `unsetEvidence` unconditionally empties the evidence
list, and a successful `setEvidence` followed by `unsetEvidence` on a
network whose evidence list was empty beforehand restores the network,
hence every node's marginal, exactly. -/
theorem unsetEvidence_restores (net : BayesianNet) :
    (∀ m : BayesianNet, (unsetEvidence m).evidenceList = []) ∧
    (∀ ev, net.evidenceList = [] → (setEvidence net ev).2 = .ok →
      unsetEvidence (setEvidence net ev).1 = net ∧
      ∀ uName total,
        marginalProbability (unsetEvidence (setEvidence net ev).1) uName total
          = marginalProbability net uName total) := by
  refine ⟨fun m => rfl, fun ev hev hok => ?_⟩
  have hnet : unsetEvidence (setEvidence net ev).1 = net := by
    unfold setEvidence at hok ⊢
    cases hv : validateEvidence net ev with
    | ok =>
      simp only [hv]
      unfold unsetEvidence
      cases net
      simp_all
    | invalidNode => rw [hv] at hok; simp at hok
    | invalidState => rw [hv] at hok; simp at hok
  exact ⟨hnet, fun uName total => by rw [hnet]⟩

/-- Witness for C9 (amended): the round trip on `net2` leaves the
marginal of `B` what it was. -/
theorem unsetEvidence_restores_witness :
    marginalProbability (unsetEvidence (setEvidence net2 [("A", "T")]).1)
        "B" true = marginalProbability net2 "B" true :=
  ((unsetEvidence_restores net2).2 [("A", "T")] rfl (by decide)).2 "B" true

lemma collectTables_missing (l : List Vertex)
    (h : ∃ v ∈ l, v.probability = none) :
    collectTables l = .error .missingTable := by
  induction l with
  | nil => obtain ⟨v, hv, _⟩ := h; simp at hv
  | cons w rest ih =>
    obtain ⟨v, hv, hnone⟩ := h
    rcases List.mem_cons.mp hv with rfl | hmem
    · simp [collectTables, hnone]
    · cases hw : w.probability with
      | none => simp [collectTables, hw]
      | some t => simp [collectTables, hw, ih ⟨v, hmem, hnone⟩, Except.map]

/-- C7: as soon as some vertex in the queried subset (the full network
when no subset is passed or evidence is set) has no attached table, the
joint computation fails with the missing-table error and produces no
tensor at all. -/
theorem jointProbability_missing_table (net : BayesianNet)
    (vl? : Option (List Vertex))
    (h : ∃ v ∈ queriedSubset net vl?, v.probability = none) :
    jointProbability net vl? = .error .missingTable := by
  have hc : collectTables (queriedSubset net vl?) = .error .missingTable :=
    collectTables_missing _ h
  unfold jointProbability rawJoint
  simp [hc, Bind.bind, Except.bind]

/-- Witness for C7 at `netMissing`, whose node `B` has no table. -/
theorem jointProbability_missing_table_witness :
    jointProbability netMissing none = .error .missingTable :=
  jointProbability_missing_table netMissing none (by decide)

lemma evidenceList_isEmpty_false (net : BayesianNet)
    (h : net.evidenceList ≠ []) : net.evidenceList.isEmpty = false := by
  cases hne : net.evidenceList with
  | nil => exact absurd hne h
  | cons a l => rfl

lemma jointProbability_evidence_full (net : BayesianNet)
    (vl? : Option (List Vertex)) (h : net.evidenceList ≠ []) :
    jointProbability net vl? = jointProbability net none := by
  unfold jointProbability queriedSubset
  simp [evidenceList_isEmpty_false net h]

/-- C1: with a non-empty evidence list, `jointProbability` ignores the
subset argument: it contracts and normalizes the full network's joint,
then fixes, for each evidence pair, the axis at the node's global label
to the index of the state in that node's states list (integer indexing
that collapses the axis), and renormalizes the slice by its own sum. -/
theorem jointProbability_ignores_subset_under_evidence (net : BayesianNet)
    (vl? : Option (List Vertex)) (h : net.evidenceList ≠ []) :
    jointProbability net vl? = (do
      let raw ← rawJoint net net.vertexes
      let fixes ← evidenceFixes net raw.normalize.shape.length
      pure (sliceTensor raw.normalize fixes).normalize) := by
  rw [jointProbability_evidence_full net vl? h]
  unfold jointProbability queriedSubset
  simp [evidenceList_isEmpty_false net h]

/-- Witness for C1 at `net2T` with the ignored subset argument `some []`. -/
theorem jointProbability_ignores_subset_witness :
    jointProbability net2T (some []) = (do
      let raw ← rawJoint net2T net2T.vertexes
      let fixes ← evidenceFixes net2T raw.normalize.shape.length
      pure (sliceTensor raw.normalize fixes).normalize) :=
  jointProbability_ignores_subset_under_evidence net2T (some []) (by decide)

/-- C2: with evidence set (which forces `total = True`), the marginal of
an existing node is the evidence-conditioned joint of the full network
contracted down to the node's own label, the labels of evidence-clamped
vertices being excluded from the input label sequence. -/
theorem marginalProbability_evidence_contraction (net : BayesianNet)
    (uName : String) (total : Bool)
    (hu : hasVertex net uName)
    (hev : net.evidenceList ≠ [])
    (hnc : uName ∉ net.evidenceList.map Prod.fst) :
    marginalProbability net uName total = (do
      let jointProb ← jointProbability net none
      let lhs ← (net.vertexes.filter
        (fun v => !((net.evidenceList.map Prod.fst).contains v.name))).mapM
        (fun v => labelOf net v.name)
      let rhs ← labelOf net uName
      pure (einsum [(lhs, jointProb)] [rhs])) := by
  unfold hasVertex at hu
  cases hvo : vertexObject net uName with
  | none => rw [hvo] at hu; simp at hu
  | some u =>
    unfold marginalProbability
    rw [hvo, ← jointProbability_evidence_full net (some net.vertexes) hev]
    simp [evidenceList_isEmpty_false net hev, Bind.bind, Except.bind]

/-- Witness for C2 at `net2T` and its unclamped node `B`, with
`total = false` being overridden. -/
theorem marginalProbability_evidence_contraction_witness :
    marginalProbability net2T "B" false = (do
      let jointProb ← jointProbability net2T none
      let lhs ← (net2T.vertexes.filter
        (fun v => !((net2T.evidenceList.map Prod.fst).contains v.name))).mapM
        (fun v => labelOf net2T v.name)
      let rhs ← labelOf net2T "B"
      pure (einsum [(lhs, jointProb)] [rhs])) :=
  marginalProbability_evidence_contraction net2T "B" false (by decide)
    (by decide) (by decide)

lemma sum_map_div (l : List ℚ) (c : ℚ) : (l.map (· / c)).sum = l.sum / c := by
  induction l with
  | nil => simp
  | cons x xs ih => simp [ih, add_div]

lemma Tensor.normalize_total (t : Tensor) (h : t.total ≠ 0) :
    t.normalize.total = 1 := by
  show (t.data.map (· / t.total)).sum = 1
  rw [sum_map_div]
  exact div_self h

/-- Counterexample to C4 as stated: `netZero` is complete and its raw
joint sums to `1 > 0`, but evidence clamps its node to a state of
probability zero, so the returned tensor sums to 0 (the source divides
`0` by `0`, yielding `nan` in numpy), not 1. -/
theorem jointProbability_total_one_cex :
    (∀ v ∈ netZero.vertexes, v.probability ≠ none) ∧
    (rawJoint netZero netZero.vertexes).map Tensor.total = .ok 1 ∧
    netZero.evidenceList ≠ [] ∧
    (jointProbability netZero none).map Tensor.total = .ok 0 ∧
    (jointProbability netZero none).map Tensor.total ≠ .ok 1 := by decide

/-- C4 (amended): when the raw contraction of the full network sums to a
positive total, the tensor `jointProbability()` returns sums to exactly 1
with the evidence list empty, and likewise with evidence set provided the
evidence slice of the normalized joint itself has positive sum. -/
theorem jointProbability_total_one (net : BayesianNet) (raw : Tensor)
    (hraw : rawJoint net net.vertexes = .ok raw)
    (hpos : 0 < raw.total) :
    (net.evidenceList = [] →
      (jointProbability net none).map Tensor.total = .ok 1) ∧
    (∀ fixes, net.evidenceList ≠ [] →
      evidenceFixes net raw.normalize.shape.length = .ok fixes →
      0 < (sliceTensor raw.normalize fixes).total →
      (jointProbability net none).map Tensor.total = .ok 1) := by
  have hq : queriedSubset net none = net.vertexes := rfl
  constructor
  · intro hev
    have hisE : net.evidenceList.isEmpty = true := by simp [hev]
    unfold jointProbability
    simp only [hq, hraw, hisE, Bind.bind, Except.bind, Except.map, pure,
      Except.pure, if_true]
    exact congrArg Except.ok (Tensor.normalize_total raw (ne_of_gt hpos))
  · intro fixes hev hfx hslice
    unfold jointProbability
    simp only [hq, hraw, evidenceList_isEmpty_false net hev, hfx, Bind.bind,
      Except.bind, Except.map, pure, Except.pure, Bool.false_eq_true,
      if_false]
    exact congrArg Except.ok (Tensor.normalize_total _ (ne_of_gt hslice))

/-- Witness for C4 (amended): both clauses, on `net2` without evidence
and on `net2T` with the evidence `A = T` set. -/
theorem jointProbability_total_one_witness :
    (jointProbability net2 none).map Tensor.total = .ok 1 ∧
    (jointProbability net2T none).map Tensor.total = .ok 1 :=
  ⟨(jointProbability_total_one net2
      ⟨[2, 2], [3/100, 27/100, 35/100, 35/100]⟩ (by decide) (by decide)).1 rfl,
   (jointProbability_total_one net2T
      ⟨[2, 2], [3/100, 27/100, 35/100, 35/100]⟩ (by decide) (by decide)).2
      [some 0, none] (by decide) (by decide) (by decide)⟩

end BayesNet
